import Mathlib

/-!
Verification of the easy-stream-formatter core: the Format record with its
ANSI rendering, the format stack push/pop protocol, and the character-driven
tag automaton, shallowly embedded from src/src/format.h, src/src/syntax.h,
src/src/tag_syntax.h and src/src/automaton.h. Strings are modelled as lists
of characters and the output stream as an accumulated list of characters.
-/

namespace ESF

/-- The open-brace character, written by code point to keep it out of literals. -/
def lbrace : Char := Char.ofNat 123

/-- The close-brace character. -/
def rbrace : Char := Char.ofNat 125

/-- Color enum from syntax.h: hues 0..7, DEFAULT = 9, CURRENT = 10. -/
def DEFAULT : Nat := 9

/-- Sentinel meaning inherit the color from the enclosing style. -/
def CURRENT : Nat := 10

/-- COLOR_CHARS_LOWER from syntax.h. -/
def COLOR_CHARS_LOWER : List Char := ['k', 'r', 'g', 'y', 'b', 'm', 'c', 'w']

/-- COLOR_CHARS_UPPER from syntax.h. -/
def COLOR_CHARS_UPPER : List Char := ['K', 'R', 'G', 'Y', 'B', 'M', 'C', 'W']

namespace syn

/-- Escape character constant from syntax.h. -/
def ESCAPE_CHAR : Char := '\\'

/-- Trim escape character from syntax.h. -/
def TRIM_ESCAPE : Char := '#'

/-- Character selecting the CURRENT color in a tag body. -/
def COLOR_CURRENT_CH : Char := ';'

/-- Character selecting the DEFAULT color in a tag body. -/
def COLOR_DEFAULT_CH : Char := 'd'

/-- Full-reset token character in a tag body. -/
def RESET_CHAR : Char := '0'

namespace style

def REVERSED_CH : Char := '%'
def BLINK_CH : Char := '!'
def BOLD_CH : Char := '*'
def ITALIC_CH : Char := '/'
def UNDERLINE_CH : Char := '_'
def OVERLINE_CH : Char := '^'
def DOUBLE_UNDERLINE_CH : Char := '='
def STRIKETHROUGH_CH : Char := '~'
def DIM_CH : Char := '.'

def REVERSED_BIT : Nat := 1 <<< 0
def BLINK_BIT : Nat := 1 <<< 1
def BOLD_BIT : Nat := 1 <<< 2
def ITALIC_BIT : Nat := 1 <<< 3
def UNDERLINE_BIT : Nat := 1 <<< 4
def OVERLINE_BIT : Nat := 1 <<< 5
def DOUBLE_UNDERLINE_BIT : Nat := 1 <<< 6
def STRIKETHROUGH_BIT : Nat := 1 <<< 7
def DIM_BIT : Nat := 1 <<< 8

end style

end syn

namespace ansi

def FG_BASE : Nat := 30
def BG_BASE : Nat := 40
def BRIGHT_OFFSET : Nat := 60

def RESET : Nat := 0
def BOLD : Nat := 1
def DIM : Nat := 2
def ITALIC : Nat := 3
def UNDERLINE : Nat := 4
def BLINK : Nat := 6
def REVERSED : Nat := 7
def STRIKETHROUGH : Nat := 9
def DOUBLE_UNDERLINE : Nat := 21
def OVERLINE : Nat := 53

/-- ESC followed by an open square bracket. -/
def ESC_START : List Char := [Char.ofNat 27, '[']

def ESC_END : Char := 'm'

def SEP : Char := ';'

end ansi

/-- Format from format.h: colors, brightness flags, nine style flags and
the two control flags. Colors are the numeric enum values 0..7, 9, 10. -/
structure Format where
  fg_color : Nat := DEFAULT
  fg_bright : Bool := false
  bg_color : Nat := DEFAULT
  bg_bright : Bool := false
  reversed : Bool := false
  blink : Bool := false
  bold : Bool := false
  italic : Bool := false
  underline : Bool := false
  overline : Bool := false
  double_underline : Bool := false
  strikethrough : Bool := false
  dim : Bool := false
  reset : Bool := false
  valid : Bool := false
deriving DecidableEq

/-- Format::initial from format.h. -/
def Format.initial : Format :=
  { fg_color := DEFAULT, bg_color := DEFAULT, reset := true, valid := true }

/-- Format::empty from format.h. -/
def Format.empty : Format :=
  { fg_color := CURRENT, bg_color := CURRENT, valid := true }

/-- Format::set_fg from format.h. -/
def Format.set_fg (f : Format) (c : Nat) (bright : Bool) : Format :=
  { f with fg_color := c, fg_bright := bright }

/-- Format::set_bg from format.h. -/
def Format.set_bg (f : Format) (c : Nat) (bright : Bool) : Format :=
  { f with bg_color := c, bg_bright := bright }

/-- Format::style_bits from format.h: the nine style flags packed into a bitmask. -/
def Format.style_bits (f : Format) : Nat :=
  (f.reversed.toNat <<< 0) ||| (f.blink.toNat <<< 1) ||| (f.bold.toNat <<< 2)
  ||| (f.italic.toNat <<< 3) ||| (f.underline.toNat <<< 4) ||| (f.overline.toNat <<< 5)
  ||| (f.double_underline.toNat <<< 6) ||| (f.strikethrough.toNat <<< 7)
  ||| (f.dim.toNat <<< 8)

/-- Format::set_style_bits from format.h: unpack a bitmask into the nine flags. -/
def Format.set_style_bits (f : Format) (bits : Nat) : Format :=
  { f with
    reversed := bits.testBit 0, blink := bits.testBit 1, bold := bits.testBit 2,
    italic := bits.testBit 3, underline := bits.testBit 4, overline := bits.testBit 5,
    double_underline := bits.testBit 6, strikethrough := bits.testBit 7,
    dim := bits.testBit 8 }

/-- Decimal digits of a natural number, as characters. -/
def natChars (n : Nat) : List Char := (Nat.repr n).data

/-- One optional SGR item: a separator plus the code when the flag is set,
mirroring the append_sgr helper guarded by an if in Format::to_ansi. -/
def sgr_append (b : Bool) (code : Nat) : List Char :=
  if b then ansi.SEP :: natChars code else []

/-- Format::to_ansi from format.h: reset code first, then the set style flags
in the fixed source order, then explicit foreground and background codes. -/
def Format.to_ansi (f : Format) : List Char :=
  ansi.ESC_START ++ natChars ansi.RESET
  ++ sgr_append f.bold ansi.BOLD
  ++ sgr_append f.dim ansi.DIM
  ++ sgr_append f.italic ansi.ITALIC
  ++ sgr_append f.underline ansi.UNDERLINE
  ++ sgr_append f.blink ansi.BLINK
  ++ sgr_append f.reversed ansi.REVERSED
  ++ sgr_append f.strikethrough ansi.STRIKETHROUGH
  ++ sgr_append f.double_underline ansi.DOUBLE_UNDERLINE
  ++ sgr_append f.overline ansi.OVERLINE
  ++ ansi.SEP :: natChars (ansi.FG_BASE + f.fg_color + (if f.fg_bright then ansi.BRIGHT_OFFSET else 0))
  ++ ansi.SEP :: natChars (ansi.BG_BASE + f.bg_color + (if f.bg_bright then ansi.BRIGHT_OFFSET else 0))
  ++ [ansi.ESC_END]

/-- Reading back the nine flags written by set_style_bits yields this function
of the bitmask alone. -/
def styleOf (n : Nat) : Nat :=
  ((n.testBit 0).toNat <<< 0) ||| ((n.testBit 1).toNat <<< 1) ||| ((n.testBit 2).toNat <<< 2)
  ||| ((n.testBit 3).toNat <<< 3) ||| ((n.testBit 4).toNat <<< 4) ||| ((n.testBit 5).toNat <<< 5)
  ||| ((n.testBit 6).toNat <<< 6) ||| ((n.testBit 7).toNat <<< 7) ||| ((n.testBit 8).toNat <<< 8)

/-- TagSyntax from tag_syntax.h: the three delimiter strings. -/
structure TagDelims where
  open_tag : List Char
  open_end : List Char
  close_tag : List Char
deriving DecidableEq

/-- The classic preset: open brace, double dash, double dash plus close brace. -/
def CLASSIC : TagDelims := ⟨[lbrace], ['-', '-'], ['-', '-', rbrace]⟩

/-- The construction flags of FormatterAutomaton plus the active tag delimiters. -/
structure Cfg where
  strip : Bool
  escape : Bool
  sanitize : Bool
  delims : TagDelims
deriving DecidableEq

/-- FormatterAutomaton::State from automaton.h. -/
inductive MState where
  | DEFAULT
  | PARSE_ESCAPE
  | PARSE_OPENING_TAG
  | PARSE_OPENING_BRACKET
  | PARSE_CLOSING_TAG
  | SKIP_WHITESPACE
deriving DecidableEq

/-- The mutable state of one FormatterAutomaton, with the emitted bytes
accumulated in the out field. The head of stack is the top of the
std::stack of Format values. -/
structure Auto where
  st : MState
  buffer : List Char
  stack : List Format
  bracket_format : Format
  parsed_colors : Nat
  parsed_styles : Nat
  out : List Char
deriving DecidableEq

/-- The constructor: push the initial snapshot and emit its code (when not stripping). -/
def Auto.init (cfg : Cfg) : Auto :=
  { st := MState.DEFAULT, buffer := [], stack := [Format.initial],
    bracket_format := Format.empty, parsed_colors := 0, parsed_styles := 0,
    out := if cfg.strip then [] else Format.initial.to_ansi }

/-- emit_ansi: output a control sequence unless strip mode is on. -/
def emit_ansi (cfg : Cfg) (s : Auto) (a : List Char) : Auto :=
  if cfg.strip then s else { s with out := s.out ++ a }

/-- emit_char: output one character unconditionally. -/
def emit_char (s : Auto) (c : Char) : Auto :=
  { s with out := s.out ++ [c] }

/-- flush_buffer: write the pending buffer to the output and clear it. -/
def flush_buffer (s : Auto) : Auto :=
  { s with out := s.out ++ s.buffer, buffer := [] }

/-- buffer_ends_with from automaton.h. -/
def ends_with (b suf : List Char) : Bool :=
  decide (suf.length ≤ b.length) && decide (b.drop (b.length - suf.length) = suf)

/-- buffer_remove_suffix from automaton.h. -/
def buffer_remove_suffix (b : List Char) (len : Nat) : List Char :=
  if len ≤ b.length then b.take (b.length - len) else b

/-- could_match_prefix from automaton.h: does some nonempty suffix of the
buffer equal a prefix of the pattern? The loop index i there is j+1 here. -/
def could_match_pre (pattern b : List Char) : Bool :=
  (List.range (min pattern.length b.length)).any fun j =>
    decide (b.drop (b.length - (j + 1)) = pattern.take (j + 1))

/-- push_format from automaton.h, split out as the computation of the new top
from the current top and the relative spec. -/
def push_new_top (top mask : Format) : Format :=
  let start := if mask.reset then Format.initial else top
  let f1 := start.set_style_bits (start.style_bits ^^^ mask.style_bits)
  let f2 := if mask.fg_color ≠ CURRENT then { f1 with fg_color := mask.fg_color, fg_bright := mask.fg_bright } else f1
  if mask.bg_color ≠ CURRENT then { f2 with bg_color := mask.bg_color, bg_bright := mask.bg_bright } else f2

/-- push_format from automaton.h: compute the new absolute snapshot, push it,
return its rendered code together with the new stack. -/
def push_format (stk : List Format) (mask : Format) : List Char × List Format :=
  match stk with
  | [] => ([], [])
  | top :: rest =>
    let f := push_new_top top mask
    (f.to_ansi, f :: top :: rest)

/-- pop_format from automaton.h: discard the top only when more than one entry
remains, then return the rendered code of the new top with the new stack. -/
def pop_format (stk : List Format) : List Char × List Format :=
  match stk with
  | [] => ([], [])
  | [t] => (t.to_ansi, [t])
  | _ :: t :: rest => (t.to_ansi, t :: rest)

/-- finish_bracket_parse from automaton.h. -/
def finish_bracket_parse (s : Auto) (success : Bool) : Auto :=
  let s1 := if success then { s with buffer := [] } else flush_buffer s
  { s1 with parsed_colors := 0, parsed_styles := 0, bracket_format := Format.empty,
            st := MState.DEFAULT }

/-- try_parse_color from automaton.h. Returns none where the source returns
false (in which case the source leaves the state unmodified). -/
def try_parse_color (s : Auto) (c : Char) : Option Auto :=
  let res : Option (Nat × Bool) :=
    match COLOR_CHARS_LOWER.indexOf? c with
    | some i => some (i, false)
    | none =>
      match COLOR_CHARS_UPPER.indexOf? c with
      | some i => some (i, true)
      | none =>
        if c = syn.COLOR_DEFAULT_CH then some (DEFAULT, false)
        else if c = syn.COLOR_CURRENT_CH then some (CURRENT, false)
        else none
  match res with
  | none => none
  | some (color, bright) =>
    if 2 ≤ s.parsed_colors then none
    else if s.parsed_colors = 0 then
      some { s with bracket_format := s.bracket_format.set_fg color bright,
                    parsed_colors := s.parsed_colors + 1 }
    else
      some { s with bracket_format := s.bracket_format.set_bg color bright,
                    parsed_colors := s.parsed_colors + 1 }

/-- The switch of try_parse_style: the bit for each of the nine attribute
characters. -/
def style_bit_of (c : Char) : Option Nat :=
  if c = syn.style.REVERSED_CH then some syn.style.REVERSED_BIT
  else if c = syn.style.BLINK_CH then some syn.style.BLINK_BIT
  else if c = syn.style.BOLD_CH then some syn.style.BOLD_BIT
  else if c = syn.style.ITALIC_CH then some syn.style.ITALIC_BIT
  else if c = syn.style.UNDERLINE_CH then some syn.style.UNDERLINE_BIT
  else if c = syn.style.OVERLINE_CH then some syn.style.OVERLINE_BIT
  else if c = syn.style.DOUBLE_UNDERLINE_CH then some syn.style.DOUBLE_UNDERLINE_BIT
  else if c = syn.style.STRIKETHROUGH_CH then some syn.style.STRIKETHROUGH_BIT
  else if c = syn.style.DIM_CH then some syn.style.DIM_BIT
  else none

/-- try_parse_style from automaton.h. The full-reset token sets the reset flag
and returns true with no duplicate check; a duplicate attribute bit fails. -/
def try_parse_style (s : Auto) (c : Char) : Option Auto :=
  if c = syn.RESET_CHAR then
    some { s with bracket_format := { s.bracket_format with reset := true } }
  else
    match style_bit_of c with
    | none => none
    | some style_bit =>
      if s.parsed_styles &&& style_bit ≠ 0 then none
      else
        some { s with
          parsed_styles := s.parsed_styles ||| style_bit,
          bracket_format :=
            s.bracket_format.set_style_bits (s.bracket_format.style_bits ||| style_bit) }

/-- handle_escape from automaton.h. -/
def handle_escape (s0 : Auto) (c : Char) : Auto :=
  let s := { s0 with buffer := ([] : List Char) }
  if c = syn.ESCAPE_CHAR then { emit_char s syn.ESCAPE_CHAR with st := MState.DEFAULT }
  else if c = 'a' then { emit_char s (Char.ofNat 7) with st := MState.DEFAULT }
  else if c = 'b' then { emit_char s (Char.ofNat 8) with st := MState.DEFAULT }
  else if c = 'r' then { emit_char s (Char.ofNat 13) with st := MState.DEFAULT }
  else if c = 'n' then { emit_char s (Char.ofNat 10) with st := MState.DEFAULT }
  else if c = 'f' then { emit_char s (Char.ofNat 12) with st := MState.DEFAULT }
  else if c = 't' then { emit_char s (Char.ofNat 9) with st := MState.DEFAULT }
  else if c = 'v' then { emit_char s (Char.ofNat 11) with st := MState.DEFAULT }
  else if c = syn.TRIM_ESCAPE then { s with st := MState.SKIP_WHITESPACE }
  else
    let s1 := emit_char s syn.ESCAPE_CHAR
    let s2 := { s1 with buffer := s1.buffer ++ [c] }
    { flush_buffer s2 with st := MState.DEFAULT }

/-- The character classes accepted by isspace in the C locale. -/
def isspace (c : Char) : Bool :=
  c = ' ' || c = Char.ofNat 9 || c = Char.ofNat 10 || c = Char.ofNat 11
  || c = Char.ofNat 12 || c = Char.ofNat 13

/-- handle_closing_tag from automaton.h. -/
def handle_closing_tag (cfg : Cfg) (s0 : Auto) (c : Char) : Auto :=
  let s := { s0 with buffer := s0.buffer ++ [c] }
  if ends_with s.buffer cfg.delims.close_tag && decide (1 < s.stack.length) then
    let s1 := { s with buffer := buffer_remove_suffix s.buffer cfg.delims.close_tag.length }
    let s2 := flush_buffer s1
    let p := pop_format s2.stack
    let s3 := emit_ansi cfg { s2 with stack := p.2 } p.1
    { s3 with st := MState.DEFAULT }
  else if cfg.delims.close_tag.take s.buffer.length = s.buffer then s
  else { flush_buffer s with st := MState.DEFAULT }

/-- handle_opening_tag from automaton.h. -/
def handle_opening_tag (cfg : Cfg) (s0 : Auto) (c : Char) : Auto :=
  let s := { s0 with buffer := s0.buffer ++ [c] }
  if s.buffer = cfg.delims.open_tag then
    if cfg.delims.close_tag = cfg.delims.open_tag ∧ 1 < s.stack.length then
      let s1 := { s with buffer := ([] : List Char) }
      let p := pop_format s1.stack
      let s2 := emit_ansi cfg { s1 with stack := p.2 } p.1
      { s2 with st := MState.DEFAULT }
    else
      { s with bracket_format := Format.empty, parsed_colors := 0, parsed_styles := 0,
               st := MState.PARSE_OPENING_BRACKET }
  else if cfg.delims.open_tag.take s.buffer.length = s.buffer then s
  else { flush_buffer s with st := MState.DEFAULT }

/-- The compound condition of handle_opening_bracket that reroutes a buffer
which extends the open delimiter into a close delimiter match. -/
def close_via_open_cond (cfg : Cfg) (b : List Char) : Bool :=
  decide (cfg.delims.open_tag.length ≤ cfg.delims.close_tag.length)
  && decide (cfg.delims.close_tag.take cfg.delims.open_tag.length = cfg.delims.open_tag)
  && decide (cfg.delims.open_tag.length + 1 ≤ min b.length cfg.delims.close_tag.length)
  && decide (b.drop (b.length - min b.length cfg.delims.close_tag.length)
      = cfg.delims.close_tag.take (min b.length cfg.delims.close_tag.length))

/-- handle_opening_bracket from automaton.h. -/
def handle_opening_bracket (cfg : Cfg) (s0 : Auto) (c : Char) : Auto :=
  let s := { s0 with buffer := s0.buffer ++ [c] }
  if ends_with s.buffer cfg.delims.open_end then
    let p := push_format s.stack s.bracket_format
    let s1 := emit_ansi cfg { s with stack := p.2 } p.1
    finish_bracket_parse s1 true
  else if close_via_open_cond cfg s.buffer then
    let s1 := { s with st := MState.PARSE_CLOSING_TAG }
    if ends_with s1.buffer cfg.delims.close_tag && decide (1 < s1.stack.length) then
      let s2 := { s1 with buffer := buffer_remove_suffix s1.buffer cfg.delims.close_tag.length }
      let s3 := flush_buffer s2
      let p := pop_format s3.stack
      let s4 := emit_ansi cfg { s3 with stack := p.2 } p.1
      { s4 with st := MState.DEFAULT }
    else s1
  else if could_match_pre cfg.delims.open_end s.buffer then s
  else
    match try_parse_color s c with
    | some s1 => s1
    | none =>
      match try_parse_style s c with
      | some s1 => s1
      | none => finish_bracket_parse s false

/-- handle_default from automaton.h. -/
def handle_default (cfg : Cfg) (s : Auto) (c : Char) : Auto :=
  let tentative := s.buffer ++ [c]
  if decide (cfg.delims.close_tag.length ≤ tentative.length)
      && decide (tentative.drop (tentative.length - cfg.delims.close_tag.length)
          = cfg.delims.close_tag)
      && decide (1 < s.stack.length) then
    let s1 := { s with buffer := tentative.take (tentative.length - cfg.delims.close_tag.length) }
    let s2 := flush_buffer s1
    let p := pop_format s2.stack
    emit_ansi cfg { s2 with stack := p.2 } p.1
  else if cfg.delims.open_tag.head? = some c then
    let s1 := flush_buffer s
    let s2 := { s1 with buffer := [c] }
    if cfg.delims.open_tag.length = 1 then
      if cfg.delims.close_tag = cfg.delims.open_tag ∧ 1 < s2.stack.length then
        let s3 := { s2 with buffer := ([] : List Char) }
        let p := pop_format s3.stack
        emit_ansi cfg { s3 with stack := p.2 } p.1
      else
        { s2 with bracket_format := Format.empty, parsed_colors := 0, parsed_styles := 0,
                  st := MState.PARSE_OPENING_BRACKET }
    else { s2 with st := MState.PARSE_OPENING_TAG }
  else
    let s1 := { s with buffer := s.buffer ++ [c] }
    if ends_with s1.buffer cfg.delims.close_tag && decide (1 < s1.stack.length) then
      let s2 := { s1 with buffer := buffer_remove_suffix s1.buffer cfg.delims.close_tag.length }
      let s3 := flush_buffer s2
      let p := pop_format s3.stack
      emit_ansi cfg { s3 with stack := p.2 } p.1
    else if could_match_pre cfg.delims.close_tag s1.buffer then s1
    else flush_buffer s1

/-- accept from automaton.h. The one-level self call that reprocesses the
character leaving SKIP_WHITESPACE is inlined: by the time that call happens
the escape dispatch has already been settled for this character, so the
reprocessing lands in handle_default. -/
def accept (cfg : Cfg) (s : Auto) (c : Char) : Auto :=
  if s.st = MState.PARSE_ESCAPE then handle_escape s c
  else if cfg.escape && decide (c = syn.ESCAPE_CHAR) then
    let s1 := flush_buffer s
    { s1 with buffer := [syn.ESCAPE_CHAR], st := MState.PARSE_ESCAPE }
  else
    match s.st with
    | MState.SKIP_WHITESPACE =>
      if isspace c then s else handle_default cfg { s with st := MState.DEFAULT } c
    | MState.PARSE_CLOSING_TAG => handle_closing_tag cfg s c
    | MState.PARSE_OPENING_TAG => handle_opening_tag cfg s c
    | MState.PARSE_OPENING_BRACKET => handle_opening_bracket cfg s c
    | _ => handle_default cfg s c

/-- Feed a list of characters starting from an arbitrary automaton state. -/
def run_from (cfg : Cfg) (s : Auto) (input : List Char) : Auto :=
  input.foldl (accept cfg) s

/-- Feed a whole input to a freshly constructed automaton. -/
def run (cfg : Cfg) (input : List Char) : Auto :=
  run_from cfg (Auto.init cfg) input

/-- The destructor: flush remaining buffered text, then emit the initial code
when sanitizing (suppressed in strip mode like every control sequence). -/
def finalize (cfg : Cfg) (s : Auto) : Auto :=
  let s1 := flush_buffer s
  if cfg.sanitize then emit_ansi cfg s1 Format.initial.to_ansi else s1

/-- The complete byte output of one automaton lifetime over the given input. -/
def run_out (cfg : Cfg) (input : List Char) : List Char :=
  (finalize cfg (run cfg input)).out

/-- Strip-mode classic configuration. -/
def cfg_strip : Cfg := { strip := true, escape := false, sanitize := true, delims := CLASSIC }

/-- Classic configuration emitting codes, with sanitize on. -/
def cfg_plain : Cfg := { strip := false, escape := false, sanitize := true, delims := CLASSIC }

/-- Classic configuration emitting codes, with sanitize off. -/
def cfg_nosan : Cfg := { strip := false, escape := false, sanitize := false, delims := CLASSIC }

/-- Classic configuration with escape processing enabled. -/
def cfg_esc : Cfg := { strip := false, escape := true, sanitize := true, delims := CLASSIC }

/-- The ordered association of style flags with their SGR codes, written down
from the rendering order stated in the specification. -/
def sgr_list (f : Format) : List (Bool × Nat) :=
  [(f.bold, 1), (f.dim, 2), (f.italic, 3), (f.underline, 4), (f.blink, 6),
   (f.reversed, 7), (f.strikethrough, 9), (f.double_underline, 21), (f.overline, 53)]

/-- Numeric foreground code per the specification: color index plus base
offset 30, plus 60 when the brightness flag is set. -/
def fg_code_spec (f : Format) : Nat := 30 + f.fg_color + (if f.fg_bright then 60 else 0)

/-- Numeric background code per the specification: color index plus base
offset 40, plus 60 when the brightness flag is set. -/
def bg_code_spec (f : Format) : Nat := 40 + f.bg_color + (if f.bg_bright then 60 else 0)

/-- Separator-prefixed decimal renderings of a list of SGR codes. -/
def codes_render (codes : List Nat) : List Char :=
  codes.foldr (fun n acc => ansi.SEP :: natChars n ++ acc) []

/-- Rendering as the specification words it: the reset code, then among the
nine attributes only the ones set in the fixed order, then exactly one
explicit foreground code and one explicit background code. -/
def to_ansi_spec (f : Format) : List Char :=
  ansi.ESC_START ++ natChars 0
  ++ codes_render (((sgr_list f).filter fun p => p.1).map fun p => p.2)
  ++ codes_render [fg_code_spec f, bg_code_spec f]
  ++ [ansi.ESC_END]

/-- The per-snapshot safety property of claim C9. -/
def Pgood (f : Format) : Prop :=
  f.valid = true ∧ f.reset = true ∧ f.fg_color ≠ CURRENT ∧ f.bg_color ≠ CURRENT

/-- The stack safety invariant: a fixed initial bottom entry and every entry
satisfying the snapshot property. -/
def GoodStack (stk : List Format) : Prop :=
  (∃ pre, stk = pre ++ [Format.initial]) ∧ ∀ f ∈ stk, Pgood f

/-- The DEFAULT-state buffer viability property: in the DEFAULT state the
pending buffer is empty or some nonempty suffix of it is a prefix of the
close delimiter. -/
def DInv (cfg : Cfg) (t : Auto) : Prop :=
  t.st = MState.DEFAULT →
    t.buffer = [] ∨ could_match_pre cfg.delims.close_tag t.buffer = true

/-- The escape-state buffer property: in the PARSE_ESCAPE state the pending
buffer holds exactly the escape character. -/
def EInv (t : Auto) : Prop :=
  t.st = MState.PARSE_ESCAPE → t.buffer = [syn.ESCAPE_CHAR]

/-- Scenario E input: open brace, two bold stars, the open terminator, the
word text, and the close delimiter. -/
def scenarioE : List Char :=
  [lbrace, '*', '*', '-', '-', 't', 'e', 'x', 't', '-', '-', rbrace]

/-- A tag body using the full-reset token twice, then the open terminator,
one literal letter and the close delimiter. -/
def resetTwice : List Char :=
  [lbrace, '0', '0', '-', '-', 'x', '-', '-', rbrace]

lemma style_bits_set_style_bits_eq_styleOf (f : Format) (n : Nat) :
    (f.set_style_bits n).style_bits = styleOf n := rfl

set_option maxRecDepth 4096 in
lemma styleOf_id : ∀ n, n < 512 → styleOf n = n := by decide

lemma nine_bits_lt (b1 b2 b3 b4 b5 b6 b7 b8 b9 : Bool) :
    (b1.toNat <<< 0) ||| (b2.toNat <<< 1) ||| (b3.toNat <<< 2) ||| (b4.toNat <<< 3)
    ||| (b5.toNat <<< 4) ||| (b6.toNat <<< 5) ||| (b7.toNat <<< 6) ||| (b8.toNat <<< 7)
    ||| (b9.toNat <<< 8) < 512 := by
  cases b1 <;> cases b2 <;> cases b3 <;> cases b4 <;> cases b5 <;> cases b6 <;>
    cases b7 <;> cases b8 <;> cases b9 <;> decide

lemma style_bits_lt (f : Format) : f.style_bits < 512 :=
  nine_bits_lt f.reversed f.blink f.bold f.italic f.underline f.overline
    f.double_underline f.strikethrough f.dim

lemma set_style_bits_style_bits (f : Format) (n : Nat) (hn : n < 512) :
    (f.set_style_bits n).style_bits = n := by
  rw [style_bits_set_style_bits_eq_styleOf, styleOf_id n hn]

lemma xor_lt_512 (a b : Nat) (ha : a < 512) (hb : b < 512) : a ^^^ b < 512 := by
  have h : Nat.bitwise bne a b < 2 ^ 9 :=
    Nat.bitwise_lt (by norm_num at ha ⊢; exact ha) (by norm_num at hb ⊢; exact hb)
  have hx : a ^^^ b = Nat.bitwise bne a b := rfl
  rw [hx]; norm_num at h ⊢; exact h

@[simp] lemma set_style_bits_fg_color (f : Format) (n : Nat) :
    (f.set_style_bits n).fg_color = f.fg_color := rfl

@[simp] lemma set_style_bits_fg_bright (f : Format) (n : Nat) :
    (f.set_style_bits n).fg_bright = f.fg_bright := rfl

@[simp] lemma set_style_bits_bg_color (f : Format) (n : Nat) :
    (f.set_style_bits n).bg_color = f.bg_color := rfl

@[simp] lemma set_style_bits_bg_bright (f : Format) (n : Nat) :
    (f.set_style_bits n).bg_bright = f.bg_bright := rfl

@[simp] lemma set_style_bits_reset (f : Format) (n : Nat) :
    (f.set_style_bits n).reset = f.reset := rfl

@[simp] lemma set_style_bits_valid (f : Format) (n : Nat) :
    (f.set_style_bits n).valid = f.valid := rfl

@[simp] lemma style_bits_update_fg (f : Format) (x : Nat) (w : Bool) :
    ({ f with fg_color := x, fg_bright := w } : Format).style_bits = f.style_bits := rfl

@[simp] lemma style_bits_update_bg (f : Format) (x : Nat) (w : Bool) :
    ({ f with bg_color := x, bg_bright := w } : Format).style_bits = f.style_bits := rfl

/-- Claim C1: pushing a relative spec computes the new top from the current
top: with the reset flag the starting point becomes the initial snapshot, the
new attribute bitmask is the starting bitmask XOR the spec bitmask, each color
channel is overwritten exactly when the spec color is not CURRENT and is
inherited otherwise (independently for foreground and background), and the
resulting snapshot is pushed with its rendered control-code string returned. -/
theorem push_format_correct (top : Format) (rest : List Format) (mask : Format) :
    ∃ newt : Format,
      push_format (top :: rest) mask = (newt.to_ansi, newt :: top :: rest) ∧
      newt.style_bits
        = (if mask.reset then Format.initial else top).style_bits ^^^ mask.style_bits ∧
      newt.fg_color = (if mask.fg_color = CURRENT
        then (if mask.reset then Format.initial else top).fg_color else mask.fg_color) ∧
      newt.fg_bright = (if mask.fg_color = CURRENT
        then (if mask.reset then Format.initial else top).fg_bright else mask.fg_bright) ∧
      newt.bg_color = (if mask.bg_color = CURRENT
        then (if mask.reset then Format.initial else top).bg_color else mask.bg_color) ∧
      newt.bg_bright = (if mask.bg_color = CURRENT
        then (if mask.reset then Format.initial else top).bg_bright else mask.bg_bright) := by
  have hxor : (if mask.reset then Format.initial else top).style_bits ^^^ mask.style_bits < 512 :=
    xor_lt_512 _ _ (style_bits_lt _) (style_bits_lt _)
  refine ⟨push_new_top top mask, rfl, ?_, ?_, ?_, ?_, ?_⟩ <;>
    unfold push_new_top <;>
    by_cases hf : mask.fg_color = CURRENT <;> by_cases hb : mask.bg_color = CURRENT <;>
      (try simp [hf, hb]) <;>
      exact set_style_bits_style_bits (if mask.reset then Format.initial else top)
        ((if mask.reset then Format.initial else top).style_bits ^^^ mask.style_bits) hxor

lemma codes_render_filter (l : List (Bool × Nat)) :
    codes_render ((l.filter fun p => p.1).map fun p => p.2)
      = l.foldr (fun p acc => sgr_append p.1 p.2 ++ acc) [] := by
  induction l with
  | nil => rfl
  | cons p t ih =>
    obtain ⟨b, n⟩ := p
    cases b
    · show codes_render ((t.filter fun p => p.1).map fun p => p.2)
        = ([] : List Char) ++ t.foldr (fun p acc => sgr_append p.1 p.2 ++ acc) []
      rw [List.nil_append, ih]
    · show ansi.SEP :: (natChars n ++ codes_render ((t.filter fun p => p.1).map fun p => p.2))
        = ansi.SEP :: (natChars n ++ t.foldr (fun p acc => sgr_append p.1 p.2 ++ acc) [])
      rw [ih]

/-- Claim C4: rendering a snapshot emits, in fixed order, the reset code, the
set attributes among the nine, then one explicit foreground and one explicit
background code; the numeric codes are the color index plus base offset 30
or 40 with 60 added under brightness, and the DEFAULT sentinel yields fixed
codes 39 and 49, distinct from the codes of the eight hues. -/
theorem to_ansi_correct :
    (∀ f : Format, f.to_ansi = to_ansi_spec f) ∧
    fg_code_spec Format.initial = 39 ∧
    bg_code_spec Format.initial = 49 ∧
    (((List.range 8).map fun i =>
        fg_code_spec { Format.initial with fg_color := i }).contains
      (fg_code_spec Format.initial)) = false ∧
    (((List.range 8).map fun i =>
        bg_code_spec { Format.initial with bg_color := i }).contains
      (bg_code_spec Format.initial)) = false := by
  refine ⟨?_, by decide, by decide, by decide, by decide⟩
  intro f
  rw [to_ansi_spec, codes_render_filter]
  simp only [sgr_list, List.foldr, Format.to_ansi, fg_code_spec, bg_code_spec,
    codes_render, ansi.RESET, ansi.FG_BASE, ansi.BG_BASE, ansi.BRIGHT_OFFSET,
    ansi.BOLD, ansi.DIM, ansi.ITALIC, ansi.UNDERLINE, ansi.BLINK, ansi.REVERSED,
    ansi.STRIKETHROUGH, ansi.DOUBLE_UNDERLINE, ansi.OVERLINE,
    List.append_assoc, List.append_nil, List.nil_append, List.cons_append]

/-- Claim C6: pushing the same single-attribute tag twice across two distinct
pushes toggles the attribute on and then off again (XOR applied once per
push), while reusing the same attribute character inside one tag body is
rejected by the parser rather than toggled twice. -/
theorem toggle_law (top : Format) (rest : List Format) (k : Nat)
    (s : Auto) (c : Char) (bit : Nat)
    (hk : k < 9) (hclear : top.style_bits.testBit k = false)
    (hbit : style_bit_of c = some bit) (hdup : s.parsed_styles &&& bit ≠ 0) :
    (∃ t1 t2 : Format,
      push_format (top :: rest) (Format.empty.set_style_bits (1 <<< k))
        = (t1.to_ansi, t1 :: top :: rest) ∧
      push_format (t1 :: top :: rest) (Format.empty.set_style_bits (1 <<< k))
        = (t2.to_ansi, t2 :: t1 :: top :: rest) ∧
      t1.style_bits.testBit k = true ∧
      t2.style_bits.testBit k = false) ∧
    try_parse_style s c = none := by
  constructor
  · have hlt : (1 : Nat) <<< k < 512 := by
      rw [Nat.shiftLeft_eq, one_mul]
      calc (2 : Nat) ^ k ≤ 2 ^ 8 := Nat.pow_le_pow_right (by norm_num) (by omega)
        _ < 512 := by norm_num
    set m : Format := Format.empty.set_style_bits (1 <<< k) with hm
    have hmb : m.style_bits = 1 <<< k := set_style_bits_style_bits _ _ hlt
    have hmr : m.reset = false := rfl
    have hmf : m.fg_color = CURRENT := rfl
    have hmg : m.bg_color = CURRENT := rfl
    have h1 : (push_new_top top m).style_bits = top.style_bits ^^^ (1 <<< k) := by
      unfold push_new_top
      simp [hmr, hmf, hmg, hmb]
      exact set_style_bits_style_bits _ _ (xor_lt_512 _ _ (style_bits_lt top) hlt)
    have h2 : (push_new_top (push_new_top top m) m).style_bits
        = (push_new_top top m).style_bits ^^^ (1 <<< k) := by
      unfold push_new_top
      simp [hmr, hmf, hmg, hmb]
      exact set_style_bits_style_bits _ _ (xor_lt_512 _ _ (style_bits_lt _) hlt)
    refine ⟨push_new_top top m, push_new_top (push_new_top top m) m, rfl, rfl, ?_, ?_⟩
    · rw [h1, Nat.testBit_xor, hclear]
      simp [Nat.shiftLeft_eq, Nat.testBit_two_pow_self]
    · rw [h2, h1, Nat.xor_assoc, Nat.xor_self, Nat.xor_zero, hclear]
  · have hc0 : c ≠ syn.RESET_CHAR := by
      intro h
      rw [h] at hbit
      simp [style_bit_of, syn.RESET_CHAR, syn.style.REVERSED_CH, syn.style.BLINK_CH,
        syn.style.BOLD_CH, syn.style.ITALIC_CH, syn.style.UNDERLINE_CH,
        syn.style.OVERLINE_CH, syn.style.DOUBLE_UNDERLINE_CH,
        syn.style.STRIKETHROUGH_CH, syn.style.DIM_CH] at hbit
    rw [try_parse_style, if_neg hc0, hbit]
    simp [hdup]

@[simp] lemma emit_char_st (s : Auto) (c : Char) : (emit_char s c).st = s.st := rfl

@[simp] lemma emit_char_stack (s : Auto) (c : Char) : (emit_char s c).stack = s.stack := rfl

@[simp] lemma emit_char_buffer (s : Auto) (c : Char) : (emit_char s c).buffer = s.buffer := rfl

@[simp] lemma flush_buffer_st (s : Auto) : (flush_buffer s).st = s.st := rfl

@[simp] lemma flush_buffer_stack (s : Auto) : (flush_buffer s).stack = s.stack := rfl

@[simp] lemma flush_buffer_buffer (s : Auto) : (flush_buffer s).buffer = [] := rfl

@[simp] lemma flush_buffer_bracket (s : Auto) :
    (flush_buffer s).bracket_format = s.bracket_format := rfl

@[simp] lemma emit_ansi_st (cfg : Cfg) (s : Auto) (a : List Char) :
    (emit_ansi cfg s a).st = s.st := by
  unfold emit_ansi; split <;> rfl

@[simp] lemma emit_ansi_stack (cfg : Cfg) (s : Auto) (a : List Char) :
    (emit_ansi cfg s a).stack = s.stack := by
  unfold emit_ansi; split <;> rfl

@[simp] lemma emit_ansi_buffer (cfg : Cfg) (s : Auto) (a : List Char) :
    (emit_ansi cfg s a).buffer = s.buffer := by
  unfold emit_ansi; split <;> rfl

@[simp] lemma emit_ansi_bracket (cfg : Cfg) (s : Auto) (a : List Char) :
    (emit_ansi cfg s a).bracket_format = s.bracket_format := by
  unfold emit_ansi; split <;> rfl

@[simp] lemma finish_bracket_parse_stack (s : Auto) (b : Bool) :
    (finish_bracket_parse s b).stack = s.stack := by
  unfold finish_bracket_parse; split <;> rfl

@[simp] lemma finish_bracket_parse_st (s : Auto) (b : Bool) :
    (finish_bracket_parse s b).st = MState.DEFAULT := rfl

lemma try_parse_color_frame (s : Auto) (c : Char) (s1 : Auto)
    (h : try_parse_color s c = some s1) :
    s1.st = s.st ∧ s1.stack = s.stack ∧ s1.buffer = s.buffer ∧ s1.out = s.out := by
  unfold try_parse_color at h
  repeat' split at h
  all_goals first
    | (cases h; exact ⟨rfl, rfl, rfl, rfl⟩)
    | exact absurd h (by simp)

lemma try_parse_style_frame (s : Auto) (c : Char) (s1 : Auto)
    (h : try_parse_style s c = some s1) :
    s1.st = s.st ∧ s1.stack = s.stack ∧ s1.buffer = s.buffer ∧ s1.out = s.out := by
  unfold try_parse_style at h
  repeat' split at h
  all_goals first
    | (cases h; exact ⟨rfl, rfl, rfl, rfl⟩)
    | exact absurd h (by simp)

lemma Pgood_initial : Pgood Format.initial := by
  refine ⟨rfl, rfl, ?_, ?_⟩ <;> decide

lemma push_new_top_good (top mask : Format) (h : Pgood top) : Pgood (push_new_top top mask) := by
  obtain ⟨hv, hr, hf, hb⟩ := h
  unfold push_new_top
  by_cases hmf : mask.fg_color = CURRENT <;> by_cases hmb : mask.bg_color = CURRENT <;>
    cases hmr : mask.reset <;>
      simp [Pgood, hmf, hmb, hmr, hv, hr, hf, hb] <;> decide

lemma push_format_good (stk : List Format) (mask : Format) (h : GoodStack stk) :
    GoodStack (push_format stk mask).2 := by
  obtain ⟨⟨pre, hpre⟩, hall⟩ := h
  cases stk with
  | nil => exact absurd hpre.symm (by simp)
  | cons top rest =>
    refine ⟨⟨push_new_top top mask :: pre, by rw [List.cons_append, ← hpre]; rfl⟩, ?_⟩
    intro f hf
    rcases List.mem_cons.mp hf with h1 | h2
    · subst h1
      exact push_new_top_good top mask (hall top (List.mem_cons_self _ _))
    · exact hall f h2

lemma pop_format_good (stk : List Format) (h : GoodStack stk) :
    GoodStack (pop_format stk).2 := by
  obtain ⟨⟨pre, hpre⟩, hall⟩ := h
  cases stk with
  | nil => exact absurd hpre.symm (by simp)
  | cons a rest =>
    cases rest with
    | nil => exact ⟨⟨pre, hpre⟩, hall⟩
    | cons t rest2 =>
      cases pre with
      | nil => simp at hpre
      | cons p pre2 =>
        rw [List.cons_append] at hpre
        injection hpre with h1 h2
        refine ⟨⟨pre2, h2⟩, ?_⟩
        intro f hf
        exact hall f (List.mem_cons_of_mem a hf)

lemma handle_escape_stack (s : Auto) (c : Char) : (handle_escape s c).stack = s.stack := by
  unfold handle_escape
  dsimp only
  repeat' split
  all_goals rfl

lemma handle_closing_tag_good (cfg : Cfg) (s : Auto) (c : Char) (h : GoodStack s.stack) :
    GoodStack (handle_closing_tag cfg s c).stack := by
  unfold handle_closing_tag
  dsimp only
  repeat' split
  all_goals try simp only [finish_bracket_parse_stack, emit_ansi_stack, flush_buffer_stack]
  all_goals first
    | exact h
    | exact pop_format_good _ h

lemma handle_opening_tag_good (cfg : Cfg) (s : Auto) (c : Char) (h : GoodStack s.stack) :
    GoodStack (handle_opening_tag cfg s c).stack := by
  unfold handle_opening_tag
  dsimp only
  repeat' split
  all_goals try simp only [finish_bracket_parse_stack, emit_ansi_stack, flush_buffer_stack]
  all_goals first
    | exact h
    | exact pop_format_good _ h

lemma handle_opening_bracket_good (cfg : Cfg) (s : Auto) (c : Char) (h : GoodStack s.stack) :
    GoodStack (handle_opening_bracket cfg s c).stack := by
  unfold handle_opening_bracket
  dsimp only
  repeat' split
  all_goals try simp only [finish_bracket_parse_stack, emit_ansi_stack, flush_buffer_stack]
  all_goals first
    | exact h
    | exact pop_format_good _ h
    | exact push_format_good _ _ h
    | (rename_i s1 heq; rw [(try_parse_color_frame _ _ _ heq).2.1]; exact h)
    | (rename_i s1 heq; rw [(try_parse_style_frame _ _ _ heq).2.1]; exact h)

lemma handle_default_good (cfg : Cfg) (s : Auto) (c : Char) (h : GoodStack s.stack) :
    GoodStack (handle_default cfg s c).stack := by
  unfold handle_default
  dsimp only
  repeat' split
  all_goals try simp only [finish_bracket_parse_stack, emit_ansi_stack, flush_buffer_stack]
  all_goals first
    | exact h
    | exact pop_format_good _ h

lemma accept_good (cfg : Cfg) (s : Auto) (c : Char) (h : GoodStack s.stack) :
    GoodStack (accept cfg s c).stack := by
  unfold accept
  dsimp only
  repeat' split
  all_goals first
    | (rw [handle_escape_stack]; exact h)
    | exact h
    | exact handle_default_good _ _ _ h
    | exact handle_closing_tag_good _ _ _ h
    | exact handle_opening_tag_good _ _ _ h
    | exact handle_opening_bracket_good _ _ _ h

lemma run_from_good (cfg : Cfg) (input : List Char) :
    ∀ s : Auto, GoodStack s.stack → GoodStack (run_from cfg s input).stack := by
  induction input with
  | nil => intro s hs; exact hs
  | cons a t ih =>
    intro s hs
    exact ih (accept cfg s a) (accept_good cfg s a hs)

lemma run_stack_good (cfg : Cfg) (input : List Char) : GoodStack (run cfg input).stack := by
  refine run_from_good cfg input _ ⟨⟨[], rfl⟩, ?_⟩
  intro f hf
  have : f = Format.initial := by simpa [Auto.init] using hf
  rw [this]; exact Pgood_initial

@[simp] lemma finish_bracket_parse_buffer (s : Auto) (b : Bool) :
    (finish_bracket_parse s b).buffer = [] := by
  unfold finish_bracket_parse; split <;> rfl

lemma handle_escape_dinv (cfg : Cfg) (s : Auto) (c : Char) : DInv cfg (handle_escape s c) := by
  unfold DInv handle_escape
  dsimp only
  repeat' split
  all_goals intro hst
  all_goals first
    | (left; rfl)
    | (simp at hst; done)

lemma handle_escape_einv (s : Auto) (c : Char) : EInv (handle_escape s c) := by
  unfold EInv handle_escape
  dsimp only
  repeat' split
  all_goals intro hst
  all_goals (simp at hst; done)

lemma handle_closing_tag_dinv (cfg : Cfg) (s : Auto) (c : Char)
    (hst : s.st = MState.PARSE_CLOSING_TAG) : DInv cfg (handle_closing_tag cfg s c) := by
  unfold DInv handle_closing_tag
  dsimp only
  repeat' split
  all_goals intro h
  all_goals first
    | (left; simp; done)
    | (simp [hst] at h; done)

lemma handle_closing_tag_einv (cfg : Cfg) (s : Auto) (c : Char)
    (hst : s.st = MState.PARSE_CLOSING_TAG) : EInv (handle_closing_tag cfg s c) := by
  unfold EInv handle_closing_tag
  dsimp only
  repeat' split
  all_goals intro h
  all_goals (simp [hst] at h; done)

lemma handle_opening_tag_dinv (cfg : Cfg) (s : Auto) (c : Char)
    (hst : s.st = MState.PARSE_OPENING_TAG) : DInv cfg (handle_opening_tag cfg s c) := by
  unfold DInv handle_opening_tag
  dsimp only
  repeat' split
  all_goals intro h
  all_goals first
    | (left; simp; done)
    | (simp [hst] at h; done)

lemma handle_opening_tag_einv (cfg : Cfg) (s : Auto) (c : Char)
    (hst : s.st = MState.PARSE_OPENING_TAG) : EInv (handle_opening_tag cfg s c) := by
  unfold EInv handle_opening_tag
  dsimp only
  repeat' split
  all_goals intro h
  all_goals (simp [hst] at h; done)

lemma handle_opening_bracket_dinv (cfg : Cfg) (s : Auto) (c : Char)
    (hst : s.st = MState.PARSE_OPENING_BRACKET) : DInv cfg (handle_opening_bracket cfg s c) := by
  unfold DInv handle_opening_bracket
  dsimp only
  repeat' split
  all_goals intro h
  all_goals first
    | (left; simp; done)
    | (rename_i s1 heq
       rw [(try_parse_color_frame _ _ _ heq).1] at h
       simp [hst] at h; done)
    | (rename_i s1 heq
       rw [(try_parse_style_frame _ _ _ heq).1] at h
       simp [hst] at h; done)
    | (simp [hst] at h; done)

lemma handle_opening_bracket_einv (cfg : Cfg) (s : Auto) (c : Char)
    (hst : s.st = MState.PARSE_OPENING_BRACKET) : EInv (handle_opening_bracket cfg s c) := by
  unfold EInv handle_opening_bracket
  dsimp only
  repeat' split
  all_goals intro h
  all_goals first
    | (rename_i s1 heq
       rw [(try_parse_color_frame _ _ _ heq).1] at h
       simp [hst] at h; done)
    | (rename_i s1 heq
       rw [(try_parse_style_frame _ _ _ heq).1] at h
       simp [hst] at h; done)
    | (simp [hst] at h; done)

lemma handle_default_dinv (cfg : Cfg) (s : Auto) (c : Char) :
    DInv cfg (handle_default cfg s c) := by
  unfold DInv handle_default
  dsimp only
  repeat' split
  all_goals intro h
  all_goals first
    | (left; simp; done)
    | (right; rename_i hcm; simpa using hcm)
    | (simp at h; done)

lemma handle_default_st_or (cfg : Cfg) (s : Auto) (c : Char) :
    (handle_default cfg s c).st = s.st ∨
    (handle_default cfg s c).st = MState.PARSE_OPENING_TAG ∨
    (handle_default cfg s c).st = MState.PARSE_OPENING_BRACKET := by
  unfold handle_default
  dsimp only
  repeat' split
  all_goals simp

lemma handle_default_einv (cfg : Cfg) (s : Auto) (c : Char) (hst : s.st ≠ MState.PARSE_ESCAPE) :
    EInv (handle_default cfg s c) := by
  intro h
  rcases handle_default_st_or cfg s c with h1 | h1 | h1 <;> rw [h1] at h
  · exact absurd h hst
  · exact absurd h (by decide)
  · exact absurd h (by decide)

lemma accept_dinv (cfg : Cfg) (s : Auto) (c : Char) : DInv cfg (accept cfg s c) := by
  unfold accept
  by_cases h1 : s.st = MState.PARSE_ESCAPE
  · rw [if_pos h1]; exact handle_escape_dinv cfg s c
  · rw [if_neg h1]
    by_cases h2 : (cfg.escape && decide (c = syn.ESCAPE_CHAR)) = true
    · rw [if_pos h2]; intro h; simp at h
    · rw [if_neg h2]
      cases hstv : s.st
      · exact handle_default_dinv cfg s c
      · exact absurd hstv h1
      · exact handle_opening_tag_dinv cfg s c hstv
      · exact handle_opening_bracket_dinv cfg s c hstv
      · exact handle_closing_tag_dinv cfg s c hstv
      · dsimp only
        split
        · intro h; rw [hstv] at h; exact absurd h (by decide)
        · exact handle_default_dinv cfg _ c

lemma accept_einv (cfg : Cfg) (s : Auto) (c : Char) : EInv (accept cfg s c) := by
  unfold accept
  by_cases h1 : s.st = MState.PARSE_ESCAPE
  · rw [if_pos h1]; exact handle_escape_einv s c
  · rw [if_neg h1]
    by_cases h2 : (cfg.escape && decide (c = syn.ESCAPE_CHAR)) = true
    · rw [if_pos h2]; intro h; rfl
    · rw [if_neg h2]
      cases hstv : s.st
      · exact handle_default_einv cfg s c h1
      · exact absurd hstv h1
      · exact handle_opening_tag_einv cfg s c hstv
      · exact handle_opening_bracket_einv cfg s c hstv
      · exact handle_closing_tag_einv cfg s c hstv
      · dsimp only
        split
        · intro h; rw [hstv] at h; exact absurd h (by decide)
        · exact handle_default_einv cfg _ c (by simp)

lemma run_from_dinv (cfg : Cfg) (input : List Char) :
    ∀ s : Auto, DInv cfg s → DInv cfg (run_from cfg s input) := by
  induction input with
  | nil => intro s hs; exact hs
  | cons a t ih => intro s hs; exact ih (accept cfg s a) (accept_dinv cfg s a)

lemma run_dinv (cfg : Cfg) (input : List Char) : DInv cfg (run cfg input) := by
  refine run_from_dinv cfg input _ ?_
  intro h; left; rfl

lemma run_from_einv (cfg : Cfg) (input : List Char) :
    ∀ s : Auto, EInv s → EInv (run_from cfg s input) := by
  induction input with
  | nil => intro s hs; exact hs
  | cons a t ih => intro s hs; exact ih (accept cfg s a) (accept_einv cfg s a)

lemma run_einv (cfg : Cfg) (input : List Char) : EInv (run cfg input) := by
  refine run_from_einv cfg input _ ?_
  intro h; simp [Auto.init] at h

lemma accept_default_eq (cfg : Cfg) (s : Auto) (c : Char) (hesc : cfg.escape = false)
    (hst : s.st = MState.DEFAULT) :
    accept cfg s c = handle_default cfg s c := by
  unfold accept
  rw [hst]
  simp [hesc]

lemma handle_default_plain (cfg : Cfg) (s : Auto) (c : Char) (hd : cfg.delims = CLASSIC)
    (hbuf : s.buffer = []) (h1 : c ≠ lbrace) (h2 : c ≠ '-') (h3 : c ≠ rbrace) :
    handle_default cfg s c = { s with out := s.out ++ [c], buffer := [] } := by
  unfold handle_default
  rw [hd, hbuf]
  simp [CLASSIC, ends_with, could_match_pre, flush_buffer, Ne.symm h1, h2]

lemma run_from_plain (cfg : Cfg) (hd : cfg.delims = CLASSIC) (hesc : cfg.escape = false)
    (input : List Char) (h : ∀ c ∈ input, c ≠ lbrace ∧ c ≠ '-' ∧ c ≠ rbrace) :
    ∀ s : Auto, s.st = MState.DEFAULT → s.buffer = [] →
      run_from cfg s input = { s with out := s.out ++ input, buffer := [] } := by
  induction input with
  | nil =>
    intro s hst hbuf
    obtain ⟨st0, buf0, stk0, bf0, pc0, ps0, out0⟩ := s
    dsimp only at hbuf ⊢
    subst hbuf
    simp [run_from]
  | cons a t ih =>
    intro s hst hbuf
    obtain ⟨h1, h2, h3⟩ := h a (List.mem_cons_self a t)
    have hstep : accept cfg s a = { s with out := s.out ++ [a], buffer := [] } := by
      rw [accept_default_eq cfg s a hesc hst]
      exact handle_default_plain cfg s a hd hbuf h1 h2 h3
    show run_from cfg (accept cfg s a) t = _
    rw [hstep, ih (fun c hc => h c (List.mem_cons_of_mem a hc))
        { s with out := s.out ++ [a], buffer := [] } hst rfl]
    simp

/-- Claim C2 counterexample: after four dashes the DEFAULT-state pending
buffer holds all four characters, exceeding the length of every configured
delimiter of the classic syntax (the longest is three characters). -/
theorem buffer_bound_violation :
    (run cfg_strip ['-', '-', '-', '-']).buffer = ['-', '-', '-', '-'] ∧
    CLASSIC.open_tag.length < 4 ∧ CLASSIC.open_end.length < 4 ∧
    CLASSIC.close_tag.length < 4 ∧
    (run cfg_strip ['-', '-', '-', '-']).st = MState.DEFAULT := by decide

/-- Claim C2 (amended): in the DEFAULT state the pending buffer is retained
only while some nonempty suffix of it is a prefix of the close delimiter;
a character after which no such suffix remains causes the whole buffer to be
flushed. The buffer does not hold exactly the viable suffix and its length is
not bounded by the longest delimiter. -/
theorem buffer_viability (cfg : Cfg) (input : List Char)
    (hst : (run cfg input).st = MState.DEFAULT) :
    (run cfg input).buffer = [] ∨
    could_match_pre cfg.delims.close_tag (run cfg input).buffer = true :=
  run_dinv cfg input hst

theorem buffer_viability_witness :
    (run cfg_strip ['a']).st = MState.DEFAULT ∧
    ((run cfg_strip ['a']).buffer = [] ∨
      could_match_pre cfg_strip.delims.close_tag (run cfg_strip ['a']).buffer = true) :=
  ⟨by decide, buffer_viability cfg_strip ['a'] (by decide)⟩

/-- Claim C3 counterexample: a close delimiter with nothing open is not
honored and does not re-emit the bottom entry code; it is passed through as
literal text after the single leading baseline code. -/
theorem overclose_counterexample :
    run_out cfg_nosan CLASSIC.close_tag = Format.initial.to_ansi ++ CLASSIC.close_tag ∧
    run_out cfg_nosan CLASSIC.close_tag ≠ Format.initial.to_ansi ++ Format.initial.to_ansi ∧
    (run cfg_nosan CLASSIC.close_tag).stack = [Format.initial] := by decide

/-- Claim C3 (amended): pop discards the top only when more than one entry
remains and always returns the rendered code of the resulting top; for any
input the stack never empties and its bottom entry stays the initial
snapshot, and excess close delimiters with nothing open are not honored as
pops but are emitted as literal text, leaving the stack at its single bottom
entry without crashing. -/
theorem pop_behavior :
    (∀ t : Format, pop_format [t] = (t.to_ansi, [t])) ∧
    (∀ (a t : Format) (rest : List Format), pop_format (a :: t :: rest) = (t.to_ansi, t :: rest)) ∧
    (∀ (cfg : Cfg) (input : List Char),
      (run cfg input).stack ≠ [] ∧ ∃ pre, (run cfg input).stack = pre ++ [Format.initial]) ∧
    run_out cfg_strip (CLASSIC.close_tag ++ CLASSIC.close_tag)
      = CLASSIC.close_tag ++ CLASSIC.close_tag ∧
    (run cfg_strip (CLASSIC.close_tag ++ CLASSIC.close_tag)).stack = [Format.initial] := by
  refine ⟨fun t => rfl, fun a t rest => rfl, ?_, by decide, by decide⟩
  intro cfg input
  obtain ⟨⟨pre, hpre⟩, _⟩ := run_stack_good cfg input
  exact ⟨by simp [hpre], pre, hpre⟩

/-- Claim C5: a malformed tag body character in the bracket-parsing state
abandons the tag: the whole accumulated buffer together with the offending
character is emitted verbatim, the parse counters reset, the state returns to
DEFAULT and the Format Stack is not mutated; on Scenario E the stripped
output equals the input bytes unchanged. -/
theorem malformed_tag_recovery (cfg : Cfg) (s : Auto) (c : Char)
    (hst : s.st = MState.PARSE_OPENING_BRACKET)
    (hesc : (cfg.escape && decide (c = syn.ESCAPE_CHAR)) = false)
    (h1 : ends_with (s.buffer ++ [c]) cfg.delims.open_end = false)
    (h2 : close_via_open_cond cfg (s.buffer ++ [c]) = false)
    (h3 : could_match_pre cfg.delims.open_end (s.buffer ++ [c]) = false)
    (h4 : try_parse_color { s with buffer := s.buffer ++ [c] } c = none)
    (h5 : try_parse_style { s with buffer := s.buffer ++ [c] } c = none) :
    accept cfg s c
      = { s with st := MState.DEFAULT, buffer := [], out := s.out ++ (s.buffer ++ [c]),
                 parsed_colors := 0, parsed_styles := 0, bracket_format := Format.empty } ∧
    run_out cfg_strip scenarioE = scenarioE := by
  refine ⟨?_, by decide⟩
  have hacc : accept cfg s c = handle_opening_bracket cfg s c := by
    unfold accept
    rw [hst]
    simp [hesc]
  rw [hacc]
  unfold handle_opening_bracket
  dsimp only
  rw [h1, h2]
  simp only [Bool.false_eq_true, if_false]
  rw [h3]
  simp only [Bool.false_eq_true, if_false]
  rw [h4, h5]
  rfl

theorem malformed_tag_recovery_witness :
    (run cfg_strip [lbrace, '*']).st = MState.PARSE_OPENING_BRACKET ∧
    (cfg_strip.escape && decide ('*' = syn.ESCAPE_CHAR)) = false ∧
    ends_with ((run cfg_strip [lbrace, '*']).buffer ++ ['*']) cfg_strip.delims.open_end = false ∧
    close_via_open_cond cfg_strip ((run cfg_strip [lbrace, '*']).buffer ++ ['*']) = false ∧
    could_match_pre cfg_strip.delims.open_end
      ((run cfg_strip [lbrace, '*']).buffer ++ ['*']) = false ∧
    try_parse_color { run cfg_strip [lbrace, '*'] with
      buffer := (run cfg_strip [lbrace, '*']).buffer ++ ['*'] } '*' = none ∧
    try_parse_style { run cfg_strip [lbrace, '*'] with
      buffer := (run cfg_strip [lbrace, '*']).buffer ++ ['*'] } '*' = none ∧
    (accept cfg_strip (run cfg_strip [lbrace, '*']) '*'
      = { run cfg_strip [lbrace, '*'] with
          st := MState.DEFAULT, buffer := [],
          out := (run cfg_strip [lbrace, '*']).out
            ++ ((run cfg_strip [lbrace, '*']).buffer ++ ['*']),
          parsed_colors := 0, parsed_styles := 0, bracket_format := Format.empty } ∧
      run_out cfg_strip scenarioE = scenarioE) :=
  ⟨by decide, by decide, by decide, by decide, by decide, by decide, by decide,
    malformed_tag_recovery cfg_strip (run cfg_strip [lbrace, '*']) '*' (by decide) (by decide)
      (by decide) (by decide) (by decide) (by decide) (by decide)⟩

theorem toggle_law_witness :
    2 < 9 ∧ Format.initial.style_bits.testBit 2 = false ∧
    style_bit_of '/' = some 8 ∧
    (({ Auto.init cfg_strip with parsed_styles := 8 } : Auto).parsed_styles &&& 8 ≠ 0) ∧
    ((∃ t1 t2 : Format,
        push_format [Format.initial] (Format.empty.set_style_bits (1 <<< 2))
          = (t1.to_ansi, [t1, Format.initial]) ∧
        push_format [t1, Format.initial] (Format.empty.set_style_bits (1 <<< 2))
          = (t2.to_ansi, [t2, t1, Format.initial]) ∧
        t1.style_bits.testBit 2 = true ∧ t2.style_bits.testBit 2 = false) ∧
      try_parse_style { Auto.init cfg_strip with parsed_styles := 8 } '/' = none) :=
  ⟨by decide, by decide, by decide, by decide,
    toggle_law Format.initial [] 2 { Auto.init cfg_strip with parsed_styles := 8 } '/' 8
      (by decide) (by decide) (by decide) (by decide)⟩

/-- Claim C7 counterexample: with codes emitted the constructor writes a
leading baseline code, so the complete output is not the input plus a
trailing sanitize code only. -/
theorem text_preservation_counterexample :
    run_out cfg_plain ['a'] ≠ ['a'] ++ Format.initial.to_ansi ∧
    run_out cfg_plain ['a'] = Format.initial.to_ansi ++ ['a'] ++ Format.initial.to_ansi := by
  decide

/-- Claim C7 (amended): with classic syntax and escape processing disabled,
for any input containing no delimiter character the complete output equals a
leading baseline code (when not stripped), then the input exactly, then a
trailing sanitize code (when sanitizing and not stripped). -/
theorem text_preservation (strip san : Bool) (input : List Char)
    (h : ∀ c ∈ input, c ≠ lbrace ∧ c ≠ '-' ∧ c ≠ rbrace) :
    run_out { strip := strip, escape := false, sanitize := san, delims := CLASSIC } input
      = (if strip then [] else Format.initial.to_ansi) ++ input
        ++ (if san && !strip then Format.initial.to_ansi else []) := by
  unfold run_out finalize run
  rw [run_from_plain { strip := strip, escape := false, sanitize := san, delims := CLASSIC }
    rfl rfl input h
    (Auto.init { strip := strip, escape := false, sanitize := san, delims := CLASSIC })
    rfl rfl]
  cases strip <;> cases san <;>
    simp [Auto.init, flush_buffer, emit_ansi, List.append_assoc]

theorem text_preservation_witness :
    (∀ c ∈ ['a'], c ≠ lbrace ∧ c ≠ '-' ∧ c ≠ rbrace) ∧
    run_out { strip := true, escape := false, sanitize := true, delims := CLASSIC } ['a']
      = (if true then [] else Format.initial.to_ansi) ++ ['a']
        ++ (if true && !true then Format.initial.to_ansi else []) :=
  ⟨by decide, text_preservation true true ['a'] (by decide)⟩

/-- Claim C8 counterexample: a second full-reset token in one tag body is
accepted, not treated as a parse error: the parser result is not none even
with the reset flag already set, and the two-reset tag parses and applies, so
the stripped output is the body text rather than the verbatim input. -/
theorem reset_token_counterexample :
    try_parse_style { Auto.init cfg_strip with
        bracket_format := { Format.empty with reset := true } } syn.RESET_CHAR ≠ none ∧
    run_out cfg_strip resetTwice = ['x'] ∧
    run_out cfg_strip resetTwice ≠ resetTwice := by decide

/-- Claim C8 (amended): each of the nine attribute letters may appear at most
once per tag body and reuse is a parse error, but the full-reset token is
exempt from the grammar bound: it is accepted unconditionally and
idempotently each time it occurs, and a body with two reset tokens parses
and applies rather than being abandoned. -/
theorem reset_token_repeatable (s s2 : Auto) (c : Char) (bit : Nat)
    (hbit : style_bit_of c = some bit) (hdup : s2.parsed_styles &&& bit ≠ 0) :
    try_parse_style s syn.RESET_CHAR
      = some { s with bracket_format := { s.bracket_format with reset := true } } ∧
    try_parse_style s2 c = none ∧
    run_out cfg_strip resetTwice = ['x'] := by
  refine ⟨?_, ?_, by decide⟩
  · rw [try_parse_style, if_pos rfl]
  · have hc0 : c ≠ syn.RESET_CHAR := by
      intro hh
      rw [hh] at hbit
      simp [style_bit_of, syn.RESET_CHAR, syn.style.REVERSED_CH, syn.style.BLINK_CH,
        syn.style.BOLD_CH, syn.style.ITALIC_CH, syn.style.UNDERLINE_CH, syn.style.OVERLINE_CH,
        syn.style.DOUBLE_UNDERLINE_CH, syn.style.STRIKETHROUGH_CH, syn.style.DIM_CH] at hbit
    rw [try_parse_style, if_neg hc0, hbit]
    simp [hdup]

theorem reset_token_repeatable_witness :
    style_bit_of '*' = some 4 ∧
    (({ Auto.init cfg_strip with parsed_styles := 4 } : Auto).parsed_styles &&& 4 ≠ 0) ∧
    (try_parse_style (Auto.init cfg_strip) syn.RESET_CHAR
        = some { Auto.init cfg_strip with
            bracket_format := { (Auto.init cfg_strip).bracket_format with reset := true } } ∧
      try_parse_style { Auto.init cfg_strip with parsed_styles := 4 } '*' = none ∧
      run_out cfg_strip resetTwice = ['x']) :=
  ⟨by decide, by decide,
    reset_token_repeatable (Auto.init cfg_strip) { Auto.init cfg_strip with parsed_styles := 4 }
      '*' 4 (by decide) (by decide)⟩

/-- Claim C9: every snapshot on the Format Stack of any reachable automaton
state has its valid bit and reset bit set and never holds the CURRENT
sentinel in either color channel, so the assertion guarding rendering never
fails for a reachable stack element; the stack itself is never empty. -/
theorem snapshot_validity (cfg : Cfg) (input : List Char) (f : Format)
    (hf : f ∈ (run cfg input).stack) :
    f.valid = true ∧ f.reset = true ∧ f.fg_color ≠ CURRENT ∧ f.bg_color ≠ CURRENT ∧
    (run cfg input).stack ≠ [] := by
  obtain ⟨⟨pre, hpre⟩, hall⟩ := run_stack_good cfg input
  obtain ⟨hv, hr, hfg, hbg⟩ := hall f hf
  exact ⟨hv, hr, hfg, hbg, by simp [hpre]⟩

theorem snapshot_validity_witness :
    Format.initial ∈ (run cfg_strip []).stack ∧
    (Format.initial.valid = true ∧ Format.initial.reset = true ∧
      Format.initial.fg_color ≠ CURRENT ∧ Format.initial.bg_color ≠ CURRENT ∧
      (run cfg_strip []).stack ≠ []) :=
  ⟨by decide, snapshot_validity cfg_strip [] Format.initial (by decide)⟩

/-- Claim C10: with escape processing enabled, when the input ends right
after the escape character the automaton is finalized in the PARSE_ESCAPE
state and the finalization flush emits the buffered escape character
verbatim, before any sanitize code. -/
theorem escape_final_flush (cfg : Cfg) (input : List Char)
    (hesc : cfg.escape = true) (hst : (run cfg input).st = MState.PARSE_ESCAPE) :
    (finalize cfg (run cfg input)).out
      = (run cfg input).out ++ [syn.ESCAPE_CHAR]
        ++ (if cfg.sanitize && !cfg.strip then Format.initial.to_ansi else []) := by
  have hbuf : (run cfg input).buffer = [syn.ESCAPE_CHAR] := run_einv cfg input hst
  unfold finalize
  cases hsan : cfg.sanitize <;> cases hstrip : cfg.strip <;>
    simp [flush_buffer, emit_ansi, hbuf, hsan, hstrip, List.append_assoc]

theorem escape_final_flush_witness :
    cfg_esc.escape = true ∧ (run cfg_esc ['\\']).st = MState.PARSE_ESCAPE ∧
    (finalize cfg_esc (run cfg_esc ['\\'])).out
      = (run cfg_esc ['\\']).out ++ [syn.ESCAPE_CHAR]
        ++ (if cfg_esc.sanitize && !cfg_esc.strip then Format.initial.to_ansi else []) :=
  ⟨rfl, by decide, escape_final_flush cfg_esc ['\\'] rfl (by decide)⟩

end ESF
